import Mathlib

/-!
# go-upload-server: a shallow embedding and verification

This file embeds the request-handling core of the `go-upload-server`
repository (`main.go` of the `usrv` binary: middleware chain, router,
upload handler, health handler, lifecycle controller) into Lean 4 and
proves properties of the embedding.

Modelling conventions:
* HTTP headers are association lists of (name, value); `Header.Get`
  returns the empty string when the key is absent, as in Go's net/http.
* The file system is an association list from path strings to byte
  lists; `os.Create` truncates the file at a path to empty content and
  `io.Copy` then appends the streamed bytes.  A `World` record threads
  all mutable process state (file system, which paths fail on create,
  the `healthy` int32 flag, and the current clock used by the default
  request-id generator).
* A multipart request body is either `malformed` (so that
  `ParseMultipartForm` fails) or a parsed form: an ordered list of
  (field name, file part).  A file part carries the client-supplied
  filename, its byte content, and an optional read-error position `k`
  meaning the stream fails after yielding its first `k` bytes, which is
  how a failing `io.Copy` is represented.
* Wall-clock durations (the logging middleware's `elapsed` field, the
  server timeouts) are not observable in the embedding; the access-log
  record keeps every other field the Go code logs.
-/

namespace UploadServer

/-! ## Headers -/

/-- Association-list HTTP headers, as written by `w.Header().Set` /
read by `r.Header.Get`. -/
def Headers := List (String × String)

instance : DecidableEq Headers := by
  unfold Headers
  infer_instance

/-- `r.Header.Get k`: the first value stored under `k`, or `""` when the
key is absent (Go returns the empty string for a missing header). -/
def headerGet (hs : Headers) (k : String) : String :=
  match hs with
  | [] => ""
  | p :: rest => if p.1 = k then p.2 else headerGet rest k

/-- `w.Header().Set k v`: replace the value stored under `k`, or append
the pair when `k` is absent. -/
def headerSet (hs : Headers) (k v : String) : Headers :=
  match hs with
  | [] => [(k, v)]
  | p :: rest => if p.1 = k then (k, v) :: rest else p :: headerSet rest k v

theorem headerGet_headerSet_self (hs : Headers) (k v : String) :
    headerGet (headerSet hs k v) k = v := by
  induction hs with
  | nil => simp [headerSet, headerGet]
  | cons p rest ih =>
    by_cases h : p.1 = k
    · simp [headerSet, h, headerGet]
    · simp [headerSet, h, headerGet, ih]

theorem headerGet_headerSet_ne (hs : Headers) (k k' v : String) (h : k' ≠ k) :
    headerGet (headerSet hs k' v) k = headerGet hs k := by
  induction hs with
  | nil => simp [headerSet, headerGet, h]
  | cons p rest ih =>
    by_cases hp : p.1 = k'
    · simp [headerSet, hp, headerGet, h, ih]
    · simp only [headerSet, hp, if_false, headerGet]
      by_cases hk : p.1 = k
      · simp [hk]
      · simp [hk, ih]

/-! ## File system -/

/-- The file system visible to the handler: an association list from
absolute path strings to file contents (byte lists). -/
def FS := List (String × List Nat)

instance : DecidableEq FS := by
  unfold FS
  infer_instance

/-- Read the content stored at path `p`, if a file exists there. -/
def fsRead (fs : FS) (p : String) : Option (List Nat) :=
  match fs with
  | [] => none
  | e :: rest => if e.1 = p then some e.2 else fsRead rest p

/-- Write content `v` at path `p`, replacing any existing file there
(`os.Create` truncates an existing file). -/
def fsWrite (fs : FS) (p : String) (v : List Nat) : FS :=
  match fs with
  | [] => [(p, v)]
  | e :: rest => if e.1 = p then (p, v) :: rest else e :: fsWrite rest p v

theorem fsRead_fsWrite_self (fs : FS) (p : String) (v : List Nat) :
    fsRead (fsWrite fs p v) p = some v := by
  induction fs with
  | nil => simp [fsWrite, fsRead]
  | cons e rest ih =>
    by_cases h : e.1 = p
    · simp [fsWrite, h, fsRead]
    · simp [fsWrite, h, fsRead, ih]

theorem fsRead_fsWrite_ne (fs : FS) (p q : String) (v : List Nat) (h : q ≠ p) :
    fsRead (fsWrite fs p v) q = fsRead fs q := by
  induction fs with
  | nil => simp [fsWrite, fsRead, Ne.symm h]
  | cons e rest ih =>
    by_cases hp : e.1 = p
    · simp only [fsWrite, hp, if_true, fsRead]
      have : ¬ p = q := fun hh => h hh.symm
      simp [this, hp]
    · simp only [fsWrite, hp, if_false, fsRead]
      by_cases hq : e.1 = q
      · simp [hq]
      · simp [hq, ih]

theorem fsWrite_fsWrite_self (fs : FS) (p : String) (v w : List Nat) :
    fsWrite (fsWrite fs p v) p w = fsWrite fs p w := by
  induction fs with
  | nil => simp [fsWrite]
  | cons e rest ih =>
    by_cases h : e.1 = p
    · simp [fsWrite, h]
    · simp [fsWrite, h, ih]

/-! ## `path/filepath` (Unix): `Clean` and `Join`

`filepath.Join(a, b)` in Go concatenates the non-empty elements with a
separator and applies the lexical `Clean` algorithm: repeated
separators, `.` components and inner `x/..` pairs are eliminated, `..`
components at the start of a rooted path are dropped.  No path-traversal
protection is applied: a leading `..` in a relative position escapes the
first argument. -/

/-- Split a character list on `/`, accumulating the current component in
reverse; the executable core of `strings.Split(s, "/")`. -/
def splitSlashAux : List Char → List Char → List String
  | [], cur => [String.mk cur.reverse]
  | c :: rest, cur =>
    if c = '/' then String.mk cur.reverse :: splitSlashAux rest []
    else splitSlashAux rest (c :: cur)

/-- `strings.Split(s, "/")`: the `/`-separated components of `s`
(kernel-evaluable reformulation over the character list). -/
def splitSlash (s : String) : List String := splitSlashAux s.data []

/-- Whether the path is rooted, i.e. begins with `/`. -/
def isRooted (s : String) : Bool :=
  match s.data with
  | [] => false
  | c :: _ => c = '/'

/-- Join components back with `/` separators. -/
def joinComps : List String → String
  | [] => ""
  | [c] => c
  | c :: rest => c ++ "/" ++ joinComps rest

/-- One pass of the `Clean` algorithm over the `/`-separated components,
with `acc` holding the already-emitted components in reverse order. -/
def cleanLoop (rooted : Bool) : List String → List String → List String
  | [], acc => acc.reverse
  | c :: rest, acc =>
    if c = "" ∨ c = "." then cleanLoop rooted rest acc
    else if c = ".." then
      match acc with
      | [] => if rooted then cleanLoop rooted rest [] else cleanLoop rooted rest [".."]
      | top :: tl =>
        if top = ".." then cleanLoop rooted rest (c :: top :: tl)
        else cleanLoop rooted rest tl
    else cleanLoop rooted rest (c :: acc)

/-- Go's `path/filepath.Clean` for Unix paths, reformulated over
components. -/
def filepathClean (p : String) : String :=
  let rooted := isRooted p
  let comps := cleanLoop rooted (splitSlash p) []
  if comps.isEmpty then (if rooted then "/" else ".")
  else (if rooted then "/" else "") ++ joinComps comps

/-- Go's `path/filepath.Join` for two elements: join the non-empty
elements with `/` and `Clean` the result; all-empty input yields `""`. -/
def filepathJoin (a b : String) : String :=
  if a = "" ∧ b = "" then ""
  else if a = "" then filepathClean b
  else filepathClean (a ++ "/" ++ b)

example : filepathJoin "/tmp" "a.txt" = "/tmp/a.txt" := by decide
example : filepathJoin "/tmp" "../secret" = "/secret" := by decide
example : filepathJoin "/tmp" "" = "/tmp" := by decide
example : filepathJoin "/tmp/uploads" "x//y" = "/tmp/uploads/x/y" := by decide

/-! ## Requests, responses, process state -/

/-- One file part of a parsed multipart form: the client-supplied
filename (`handler.Filename`), the byte content of the part, and the
position after which reading the part's stream fails (`none` for a
stream that delivers all bytes; `some k` makes the `io.Copy` step fail
after `k` bytes have been copied). -/
structure FilePart where
  filename : String
  data : List Nat
  readErrAfter : Option Nat
deriving DecidableEq

/-- The request body as seen through `r.ParseMultipartForm`: either the
parse fails (`malformed`: bad boundary, not multipart, ...) or it
produces an ordered list of (form-field name, file part) pairs. -/
inductive MultipartBody where
  | malformed
  | form (files : List (String × FilePart))
deriving DecidableEq

/-- The fields of `*http.Request` the embedded core reads.
`ctxRequestID` is the value stored under `requestIDKey` in the request
context (`none` when the key is absent, in which case the logging
middleware's type assertion fails and it falls back to `"unknown"`). -/
structure Request where
  method : String
  urlPath : String
  headers : Headers
  ctxRequestID : Option String
  body : MultipartBody
  remoteAddr : String
  userAgent : String
deriving DecidableEq

/-- All mutable process state threaded through a handler call: the file
system, the set of paths at which `os.Create` fails (permissions, disk
full, ...), the package-level `healthy` int32, and the current
`time.Now().UnixNano()` reading used by the default request-id
generator. -/
structure World where
  fs : FS
  createFail : List String
  healthy : Int
  now : Nat
deriving DecidableEq

/-- The access-log record emitted by the logging middleware:
`logger.Println(requestID, r.Method, r.URL.Path, elapsed, r.RemoteAddr,
r.UserAgent())` with the wall-clock `elapsed` field omitted. -/
structure AccessRecord where
  requestID : String
  method : String
  urlPath : String
  remoteAddr : String
  userAgent : String
deriving DecidableEq

/-- A log line: either an application message from a handler
(`logger.Printf`) or the access record of the logging middleware. -/
inductive LogLine where
  | app (msg : String)
  | access (rec : AccessRecord)
deriving DecidableEq

/-- The observable outcome of handling one request: response status,
headers and body, the process state afterwards, and the log lines
emitted during handling, in order. -/
structure HResult where
  status : Nat
  headers : Headers
  body : String
  world : World
  logs : List LogLine
deriving DecidableEq

/-- An `http.Handler`: from the request, the response headers set so
far, and the process state, to the handling outcome. -/
abbrev Handler := Request → Headers → World → HResult

/-- `Middleware`, as in the source: a function wrapping handlers. -/
abbrev Middleware := Handler → Handler

/-- `http.Error(w, msg, code)`: set the plain-text content-type headers,
write `msg` followed by a newline, and set the status code. -/
def httpError (hdrs : Headers) (w : World) (logs : List LogLine)
    (msg : String) (code : Nat) : HResult :=
  { status := code
    headers := headerSet (headerSet hdrs "Content-Type" "text/plain; charset=utf-8")
      "X-Content-Type-Options" "nosniff"
    body := msg ++ "\n"
    world := w
    logs := logs }

/-! ## Handlers and router, from `main.go` -/

/-- `r.FormFile(key)`: the first file part stored under the form-field
name `key`, or `none` (an error in Go) when the field is absent. -/
def formFile (files : List (String × FilePart)) (key : String) : Option FilePart :=
  match files with
  | [] => none
  | p :: rest => if p.1 = key then some p.2 else formFile rest key

/-- The `upload` handler.  Mirrors, branch for branch:
method check (405), `ParseMultipartForm` (400), `FormFile` (400),
`os.Create(filepath.Join(baseDir, handler.Filename))` (500), `io.Copy`
(500), then the 200 success response and log line.  `maxFileSize` only
bounds the parser's in-memory staging of parts in Go and has no
observable effect on the outcome, so it is unused here. -/
def upload (baseDir formFileFieldName : String) (maxFileSize : Int) : Handler :=
  fun r hdrs w =>
    if r.method ≠ "POST" then
      httpError hdrs w [] "Method not allowed" 405
    else
      match r.body with
      | .malformed =>
        httpError hdrs w [.app "Error parsing multipart form"]
          "Could not parse multipart form" 400
      | .form files =>
        match formFile files formFileFieldName with
        | none =>
          httpError hdrs w [.app "Error retrieving file from form"]
            "Could not get file from form" 400
        | some part =>
          let path := filepathJoin baseDir part.filename
          if w.createFail.contains path then
            httpError hdrs w [.app "Error creating file on disk"]
              "Could not create file on disk" 500
          else
            let w1 : World := { w with fs := fsWrite w.fs path [] }
            match part.readErrAfter with
            | some k =>
              httpError hdrs { w1 with fs := fsWrite w1.fs path (part.data.take k) }
                [.app "Error saving file"] "Could not save file" 500
            | none =>
              { status := 200
                headers := hdrs
                body := "File uploaded successfully: " ++ part.filename ++ "\n"
                world := { w1 with fs := fsWrite w1.fs path part.data }
                logs := [.app ("File uploaded successfully: " ++ part.filename)] }

/-- The `healthz` handler: 200 with empty body when the `healthy` flag
equals 1, 503 with empty body otherwise; the request (method included)
is never inspected and no state is touched. -/
def healthz : Handler :=
  fun _ hdrs w =>
    if w.healthy = 1 then
      { status := 200, headers := hdrs, body := "", world := w, logs := [] }
    else
      { status := 503, headers := hdrs, body := "", world := w, logs := [] }

/-- `http.NotFoundHandler()`: `http.Error(w, "404 page not found", 404)`. -/
def notFoundHandler : Handler :=
  fun _ hdrs w => httpError hdrs w [] "404 page not found" 404

/-- `Config`, as in `config.go`; durations in nanoseconds. -/
structure Config where
  dir : String
  listenAddr : String
  formUploadField : String
  uploadEndpoint : String
  maxInMemorySize : Int
  readTimeout : Int
  writeTimeout : Int
  idleTimeout : Int
deriving DecidableEq

/-- `addRoutes` plus `ServeMux` dispatch: the three registered exact
patterns `/healthz`, `config.uploadEndpoint` and the catch-all `/`
(mapped to the not-found responder).  Registering the upload endpoint at
`/healthz` or `/` would panic in Go, so distinct paths are assumed. -/
def addRoutes (cfg : Config) : Handler :=
  fun r hdrs w =>
    if r.urlPath = "/healthz" then healthz r hdrs w
    else if r.urlPath = cfg.uploadEndpoint then
      upload cfg.dir cfg.formUploadField cfg.maxInMemorySize r hdrs w
    else notFoundHandler r hdrs w

/-! ## Middleware, from `main.go` -/

/-- `NewLoggingMiddleware`: run the wrapped handler, then (in a `defer`,
hence also on every error path) append one access record whose request
id is the context value, or `"unknown"` when the context carries none. -/
def NewLoggingMiddleware : Middleware :=
  fun next => fun r hdrs w =>
    let res := next r hdrs w
    let requestID := match r.ctxRequestID with
      | some s => s
      | none => "unknown"
    { res with
        logs := res.logs ++
          [.access ⟨requestID, r.method, r.urlPath, r.remoteAddr, r.userAgent⟩] }

/-- `defaultRequestIDFunc`: `fmt.Sprintf("%d", time.Now().UnixNano())`,
i.e. the decimal representation of the current clock reading. -/
def defaultRequestIDFunc (now : Nat) : String := Nat.repr now

/-- `NewTracingMiddleware`: adopt the inbound `X-Request-Id` header when
it is non-empty, otherwise generate an id (with the supplied generator,
or the default time-derived one when the generator is `nil`); store the
id in the request context, set it as a response header, and only then
invoke the wrapped handler.  A generator is a function of the clock
reading, standing for an impure `func() string`. -/
def NewTracingMiddleware (requestIDFunc : Option (Nat → String)) : Middleware :=
  fun next => fun r hdrs w =>
    let requestID := headerGet r.headers "X-Request-Id"
    let requestID :=
      if requestID.length = 0 then
        match requestIDFunc with
        | some f => f w.now
        | none => defaultRequestIDFunc w.now
      else requestID
    next { r with ctxRequestID := some requestID }
      (headerSet hdrs "X-Request-Id" requestID) w

/-- `newServer`: the router wrapped first by the logging middleware and
then by the tracing middleware, exactly as the successive assignments
in the source build it. -/
def newServer (cfg : Config) (nextRequestID : Option (Nat → String)) : Handler :=
  let mux := addRoutes cfg
  let handler := mux
  let handler := NewLoggingMiddleware handler
  let handler := NewTracingMiddleware nextRequestID handler
  handler

/-! ## Lifecycle controller, from `run` in `main.go` -/

/-- The operator-visible events `run` produces, in order: the listening
log line, a listener error on stderr (when `ListenAndServe` returns an
error other than `ErrServerClosed`), the shutdown notice, the bounded
`Shutdown` call with its timeout in seconds, a shutdown error on
stderr, and the final completion log line. -/
inductive Event where
  | logListening (addr : String)
  | stderrListenError (msg : String)
  | logShuttingDown
  | shutdownInvoked (ceilingSeconds : Nat)
  | stderrShutdownError (msg : String)
  | logShutdownComplete
deriving DecidableEq

/-- The package-level mutable application state: the `healthy` int32. -/
structure AppState where
  healthy : Int
deriving DecidableEq

/-- The zero value of `var healthy int32`. -/
def initialAppState : AppState := { healthy := 0 }

/-- The fixed drain ceiling: `context.WithTimeout(ctx, 10*time.Second)`. -/
def shutdownCeilingSeconds : Nat := 10

/-- The `run` function: start the listener in a goroutine (logging the
address, and reporting a listen error to stderr), block until the
interrupt signal, log the shutdown notice, call `Shutdown` bounded by
the fixed ceiling, report a shutdown error to stderr without crashing,
and log completion.  `listenErr` and `shutdownErr` are the errors those
two calls return.  The body of `run` never references the `healthy`
flag, so the application state passes through unchanged. -/
def run (st : AppState) (addr : String)
    (listenErr shutdownErr : Option String) : AppState × List Event :=
  let listenEvents := [Event.logListening addr] ++
    (match listenErr with
     | some e => [Event.stderrListenError e]
     | none => [])
  let drainEvents := [Event.logShuttingDown,
      Event.shutdownInvoked shutdownCeilingSeconds] ++
    (match shutdownErr with
     | some e => [Event.stderrShutdownError e]
     | none => []) ++
    [Event.logShutdownComplete]
  (st, listenEvents ++ drainEvents)

/-! ## Helper lemmas -/

theorem toDigitsCore_length_le (b : Nat) :
    ∀ (f n : Nat) (acc : List Char),
      acc.length ≤ (Nat.toDigitsCore b f n acc).length := by
  intro f
  induction f with
  | zero => intro n acc; simp [Nat.toDigitsCore]
  | succ f ih =>
    intro n acc
    unfold Nat.toDigitsCore
    by_cases h : n / b = 0
    · simp [h]
    · simp only [h, if_false]
      have h1 : acc.length ≤ (Nat.digitChar (n % b) :: acc).length := by simp
      exact le_trans h1 (ih (n / b) (Nat.digitChar (n % b) :: acc))

theorem toDigits_ne_nil (b n : Nat) : Nat.toDigits b n ≠ [] := by
  unfold Nat.toDigits
  unfold Nat.toDigitsCore
  by_cases h : n / b = 0
  · simp [h]
  · simp only [h, if_false]
    intro hnil
    have h1 := toDigitsCore_length_le b n (n / b) [Nat.digitChar (n % b)]
    rw [hnil] at h1
    simp at h1

/-- The default request-id generator never returns the empty string:
the decimal representation of a natural number has at least one digit. -/
theorem defaultRequestIDFunc_ne_empty (now : Nat) : defaultRequestIDFunc now ≠ "" := by
  unfold defaultRequestIDFunc Nat.repr
  intro h
  have h1 : (Nat.toDigits 10 now).asString.data = ("" : String).data := by rw [h]
  simp only [List.asString] at h1
  exact toDigits_ne_nil 10 now h1

/-! ## Claims -/

/-- **C7**.  For every request reaching the health handler, regardless of
HTTP method, the handler reads the health gate and responds with status
200 and an empty body when the gate equals 1, and with status 503 and an
empty body otherwise; the request body, the file system, the gate and
the response headers are untouched and no log line is emitted. -/
theorem healthz_reports_gate (r : Request) (hdrs : Headers) (w : World) :
    healthz r hdrs w =
      { status := if w.healthy = 1 then 200 else 503
        headers := hdrs
        body := ""
        world := w
        logs := [] } := by
  unfold healthz
  by_cases h : w.healthy = 1 <;> simp [h]

/-- **C2** (supporting theorem for the code bug).  The program never
stores 1 into the `healthy` flag: it starts at its zero value and the
lifecycle controller `run` passes it through unchanged for every
possible listener and shutdown outcome, so a health request made at any
point — in particular after the listener is up — is answered 503, never
200. -/
theorem healthy_gate_never_set (addr : String) (listenErr shutdownErr : Option String)
    (r : Request) (hdrs : Headers) (fs : FS) (cf : List String) (now : Nat) :
    (run initialAppState addr listenErr shutdownErr).1.healthy = 0 ∧
    (healthz r hdrs
      { fs := fs, createFail := cf,
        healthy := (run initialAppState addr listenErr shutdownErr).1.healthy,
        now := now }).status = 503 := by
  unfold run initialAppState healthz
  simp

/-- **C8**.  After the termination signal, `run` invokes graceful
shutdown bounded by the fixed 10-second ceiling; when shutdown returns
an error the error is written to the error stream and the controller
still returns normally (it is a total function of the outcome, with the
application state passed through); and in every case the final
shutdown-completion log line is the last event emitted before `run`
returns. -/
theorem run_shutdown_bounded_and_logged (st : AppState) (addr : String)
    (listenErr shutdownErr : Option String) :
    shutdownCeilingSeconds = 10 ∧
    (run st addr listenErr shutdownErr).2.contains
      (Event.shutdownInvoked shutdownCeilingSeconds) = true ∧
    (run st addr listenErr shutdownErr).2.getLast? = some Event.logShutdownComplete ∧
    (∀ e, shutdownErr = some e →
      (run st addr listenErr shutdownErr).2.contains (Event.stderrShutdownError e) = true) ∧
    (shutdownErr = none →
      ∀ e, (run st addr listenErr shutdownErr).2.contains (Event.stderrShutdownError e) = false) ∧
    (run st addr listenErr shutdownErr).1 = st := by
  cases shutdownErr <;> cases listenErr <;>
    simp [run, shutdownCeilingSeconds, List.getLast?_concat, List.contains]

/-- Witness for C8 at a concrete shutdown outcome: a listener on
`:3000` whose `Shutdown` call reports that the 10-second ceiling was
exceeded still reports the error and emits the final completion line. -/
theorem run_shutdown_bounded_and_logged_witness :
    (run initialAppState ":3000" none (some "context deadline exceeded")).2.contains
      (Event.stderrShutdownError "context deadline exceeded") = true ∧
    (run initialAppState ":3000" none (some "context deadline exceeded")).2.getLast? =
      some Event.logShutdownComplete := by
  have h := run_shutdown_bounded_and_logged initialAppState ":3000" none
    (some "context deadline exceeded")
  exact ⟨h.2.2.2.1 "context deadline exceeded" rfl, h.2.2.1⟩

/-! ## Request-id bookkeeping used in statements -/

/-- The id the tracing middleware generates when the inbound header is
empty: the supplied generator at the current clock reading, or the
default time-derived generator when `nil` was supplied (as `main` does). -/
def generatedID (f : Option (Nat → String)) (now : Nat) : String :=
  match f with
  | some g => g now
  | none => defaultRequestIDFunc now

/-- The id the tracing middleware settles on for a request: the inbound
`X-Request-Id` header when non-empty, a generated id otherwise. -/
def tracedID (f : Option (Nat → String)) (r : Request) (w : World) : String :=
  if (headerGet r.headers "X-Request-Id").length = 0 then generatedID f w.now
  else headerGet r.headers "X-Request-Id"

/-- A string of length zero is the empty string. -/
theorem string_eq_empty_of_length {s : String} (h : s.length = 0) : s = "" := by
  cases s with
  | mk data =>
    cases data with
    | nil => rfl
    | cons c cs => simp [String.length] at h

/-! ## Header preservation through the routed handlers -/

/-- Every branch of the upload handler returns the headers it was given,
or those headers with only the two `http.Error` content-type keys set. -/
theorem upload_headers_cases (baseDir field : String) (maxSz : Int)
    (r : Request) (hdrs : Headers) (w : World) :
    ((upload baseDir field maxSz) r hdrs w).headers = hdrs ∨
    ((upload baseDir field maxSz) r hdrs w).headers =
      headerSet (headerSet hdrs "Content-Type" "text/plain; charset=utf-8")
        "X-Content-Type-Options" "nosniff" := by
  unfold upload
  dsimp only
  repeat' split
  all_goals first
    | (left; rfl)
    | (right; rfl)

/-- The same for the full router. -/
theorem addRoutes_headers_cases (cfg : Config) (r : Request) (hdrs : Headers) (w : World) :
    ((addRoutes cfg) r hdrs w).headers = hdrs ∨
    ((addRoutes cfg) r hdrs w).headers =
      headerSet (headerSet hdrs "Content-Type" "text/plain; charset=utf-8")
        "X-Content-Type-Options" "nosniff" := by
  unfold addRoutes
  split
  · unfold healthz
    split
    · left; rfl
    · left; rfl
  · split
    · exact upload_headers_cases cfg.dir cfg.formUploadField cfg.maxInMemorySize r hdrs w
    · right; rfl

/-- No routed handler disturbs the `X-Request-Id` response header. -/
theorem addRoutes_preserves_xRequestId (cfg : Config) (r : Request)
    (hdrs : Headers) (w : World) :
    headerGet ((addRoutes cfg) r hdrs w).headers "X-Request-Id" =
      headerGet hdrs "X-Request-Id" := by
  rcases addRoutes_headers_cases cfg r hdrs w with h | h
  · rw [h]
  · rw [h, headerGet_headerSet_ne _ _ _ _ (by decide),
      headerGet_headerSet_ne _ _ _ _ (by decide)]

/-! ## Sample data for counterexamples and witnesses -/

/-- The default configuration of the deployed binary. -/
def sampleCfg : Config :=
  { dir := "/tmp", listenAddr := ":3000", formUploadField := "upload",
    uploadEndpoint := "/upload", maxInMemorySize := 10485760,
    readTimeout := 15000000000, writeTimeout := 15000000000,
    idleTimeout := 60000000000 }

/-- An empty file system, no create failures, unhealthy gate, clock 42. -/
def sampleWorld : World := { fs := [], createFail := [], healthy := 0, now := 42 }

/-- A plain GET health probe without an inbound `X-Request-Id` header. -/
def healthReq : Request :=
  { method := "GET", urlPath := "/healthz", headers := [],
    ctxRequestID := none, body := .form [], remoteAddr := "127.0.0.1:50000",
    userAgent := "curl/8.6.0" }

/-- **C3** (counterexample).  The claimed nesting — Logging wraps Tracing
wraps Router — disagrees with the server the constructor builds, on a
concrete health probe: the constructor's server logs the tracing-assigned
id `"42"`, while under the claimed nesting the logging layer would run
outside the context-augmenting tracing layer and log `"unknown"`. -/
theorem newServer_ne_logging_outermost :
    NewLoggingMiddleware (NewTracingMiddleware none (addRoutes sampleCfg))
        healthReq [] sampleWorld ≠
      newServer sampleCfg none healthReq [] sampleWorld := by
  decide

/-- **C3** (amended).  The middleware composition built by the server
constructor nests, outermost to innermost, Tracing wraps Logging wraps
Router — definitionally — so that for every request the tracing layer
runs outside the logging layer around the routed handler, and the
access record logging emits (the last log line of every response)
carries the request id that tracing assigned. -/
theorem newServer_composition (cfg : Config) (f : Option (Nat → String))
    (r : Request) (hdrs : Headers) (w : World) :
    newServer cfg f = NewTracingMiddleware f (NewLoggingMiddleware (addRoutes cfg)) ∧
    (newServer cfg f r hdrs w).logs.getLast? =
      some (LogLine.access
        ⟨tracedID f r w, r.method, r.urlPath, r.remoteAddr, r.userAgent⟩) := by
  constructor
  · rfl
  · cases f <;> by_cases h : (headerGet r.headers "X-Request-Id").length = 0 <;>
      simp [newServer, NewTracingMiddleware, NewLoggingMiddleware, tracedID,
        generatedID, h, List.getLast?_concat]

/-- **C4**.  For every request handled by the tracing middleware, with
any generator that returns a non-empty id at the current clock (as the
default time-derived one always does): the wrapped handler is invoked
with the settled id attached to the request context and with the
response headers already carrying it under `X-Request-Id`; the id is
non-empty; it equals the inbound `X-Request-Id` header when that header
is present and non-empty, and is the generated id otherwise; and on the
full server the response leaves with exactly this id in its headers. -/
theorem tracing_request_id (f : Option (Nat → String)) (next : Handler)
    (r : Request) (hdrs : Headers) (w : World)
    (hgen : generatedID f w.now ≠ "") :
    NewTracingMiddleware f next r hdrs w =
      next { r with ctxRequestID := some (tracedID f r w) }
        (headerSet hdrs "X-Request-Id" (tracedID f r w)) w ∧
    tracedID f r w ≠ "" ∧
    (headerGet r.headers "X-Request-Id" ≠ "" →
      tracedID f r w = headerGet r.headers "X-Request-Id") ∧
    (headerGet r.headers "X-Request-Id" = "" →
      tracedID f r w = generatedID f w.now) ∧
    (∀ cfg : Config,
      headerGet (newServer cfg f r hdrs w).headers "X-Request-Id" = tracedID f r w) := by
  refine ⟨?_, ?_, ?_, ?_, ?_⟩
  · cases f <;> by_cases h : (headerGet r.headers "X-Request-Id").length = 0 <;>
      simp [NewTracingMiddleware, tracedID, generatedID, h]
  · unfold tracedID
    by_cases h : (headerGet r.headers "X-Request-Id").length = 0
    · simp [h, hgen]
    · simp only [h, if_false]
      exact fun heq => h (by rw [heq]; rfl)
  · intro hne
    have h : ¬ (headerGet r.headers "X-Request-Id").length = 0 :=
      fun h0 => hne (string_eq_empty_of_length h0)
    unfold tracedID
    simp [h]
  · intro he
    unfold tracedID
    simp [he]
  · intro cfg
    have h1 : newServer cfg f r hdrs w =
        (NewLoggingMiddleware (addRoutes cfg))
          { r with ctxRequestID := some (tracedID f r w) }
          (headerSet hdrs "X-Request-Id" (tracedID f r w)) w := by
      cases f <;> by_cases h : (headerGet r.headers "X-Request-Id").length = 0 <;>
        simp [newServer, NewTracingMiddleware, tracedID, generatedID, h]
    rw [h1]
    show headerGet ((addRoutes cfg) _ _ _).headers "X-Request-Id" = _
    rw [addRoutes_preserves_xRequestId]
    exact headerGet_headerSet_self _ _ _

/-- Witness for C4: on a concrete health probe without an inbound
header, against the deployed configuration (`nil` generator), the
settled id is non-empty and the response headers carry it. -/
theorem tracing_request_id_witness :
    tracedID none healthReq sampleWorld ≠ "" ∧
    headerGet (newServer sampleCfg none healthReq [] sampleWorld).headers
      "X-Request-Id" = tracedID none healthReq sampleWorld := by
  have h := tracing_request_id none healthz healthReq [] sampleWorld (by decide)
  exact ⟨h.2.1, h.2.2.2.2 sampleCfg⟩

/-- Applying the built server to a request reduces to applying the
logging-wrapped router to the context-augmented request with the
response headers already carrying the settled request id. -/
theorem newServer_apply (cfg : Config) (f : Option (Nat → String))
    (r : Request) (hdrs : Headers) (w : World) :
    newServer cfg f r hdrs w =
      (NewLoggingMiddleware (addRoutes cfg))
        { r with ctxRequestID := some (tracedID f r w) }
        (headerSet hdrs "X-Request-Id" (tracedID f r w)) w := by
  cases f <;> by_cases h : (headerGet r.headers "X-Request-Id").length = 0 <;>
    simp [newServer, NewTracingMiddleware, tracedID, generatedID, h]

/-- **C1**.  Upload round-trip: for every byte sequence (length 0
included) and every filename, a POST to the upload path whose parsed
form carries that file under the configured field, in which every step
of the upload handler succeeds (creation does not fail and the stream
delivers all bytes), yields a 200 response with body
`File uploaded successfully: <F>\n`, leaves exactly those bytes in the
file at the destination path `dir ⧸ F`, and touches no other path. -/
theorem upload_roundtrip (cfg : Config) (f : Option (Nat → String)) (r : Request)
    (hdrs : Headers) (w : World) (files : List (String × FilePart))
    (F : String) (bytes : List Nat)
    (hep : cfg.uploadEndpoint ≠ "/healthz")
    (hm : r.method = "POST")
    (hp : r.urlPath = cfg.uploadEndpoint)
    (hb : r.body = MultipartBody.form files)
    (hf : formFile files cfg.formUploadField = some ⟨F, bytes, none⟩)
    (hc : w.createFail.contains (filepathJoin cfg.dir F) = false) :
    (newServer cfg f r hdrs w).status = 200 ∧
    (newServer cfg f r hdrs w).body = "File uploaded successfully: " ++ F ++ "\n" ∧
    fsRead (newServer cfg f r hdrs w).world.fs (filepathJoin cfg.dir F) = some bytes ∧
    (∀ p, p ≠ filepathJoin cfg.dir F →
      fsRead (newServer cfg f r hdrs w).world.fs p = fsRead w.fs p) := by
  rw [newServer_apply cfg f r hdrs w]
  simp only [NewLoggingMiddleware, addRoutes]
  dsimp only
  rw [hp]
  simp only [hep, if_false, if_pos rfl]
  unfold upload
  dsimp only
  rw [hm]
  simp only [hb, hf, hc]
  simp only [ne_eq, not_true_eq_false, if_false, Bool.false_eq_true, if_neg,
    fsWrite_fsWrite_self]
  refine ⟨rfl, rfl, fsRead_fsWrite_self _ _ _, ?_⟩
  intro p hpne
  exact fsRead_fsWrite_ne _ _ _ _ hpne

/-- The concrete upload of the two bytes `hi` to `a.txt`. -/
def uploadReq : Request :=
  { method := "POST", urlPath := "/upload", headers := [],
    ctxRequestID := none,
    body := .form [("upload", ⟨"a.txt", [104, 105], none⟩)],
    remoteAddr := "127.0.0.1:50001", userAgent := "curl/8.6.0" }

/-- Witness for C1: uploading the two bytes `hi` as `a.txt` against the
default configuration stores them at `/tmp/a.txt` and reports success. -/
theorem upload_roundtrip_witness :
    (newServer sampleCfg none uploadReq [] sampleWorld).status = 200 ∧
    (newServer sampleCfg none uploadReq [] sampleWorld).body =
      "File uploaded successfully: a.txt\n" ∧
    fsRead (newServer sampleCfg none uploadReq [] sampleWorld).world.fs
      "/tmp/a.txt" = some [104, 105] := by
  have h := upload_roundtrip sampleCfg none uploadReq [] sampleWorld
    [("upload", ⟨"a.txt", [104, 105], none⟩)] "a.txt" [104, 105]
    (by decide) rfl rfl rfl (by decide) (by decide)
  have hpath : filepathJoin sampleCfg.dir "a.txt" = "/tmp/a.txt" := by decide
  exact ⟨h.1, h.2.1, by rw [← hpath]; exact h.2.2.1⟩

/-- **C5**.  Every client-input error of the upload handler — a method
other than POST (405), a multipart body that fails to parse (400), a
parsed form lacking the configured file field (400) — produces exactly
the corresponding `http.Error` plain-text response, with the process
state (in particular the file system) handed back untouched. -/
theorem upload_client_errors (baseDir field : String) (maxSz : Int)
    (r : Request) (hdrs : Headers) (w : World) :
    (r.method ≠ "POST" →
      upload baseDir field maxSz r hdrs w =
        httpError hdrs w [] "Method not allowed" 405) ∧
    (r.method = "POST" → r.body = MultipartBody.malformed →
      upload baseDir field maxSz r hdrs w =
        httpError hdrs w [.app "Error parsing multipart form"]
          "Could not parse multipart form" 400) ∧
    (∀ files, r.method = "POST" → r.body = MultipartBody.form files →
      formFile files field = none →
      upload baseDir field maxSz r hdrs w =
        httpError hdrs w [.app "Error retrieving file from form"]
          "Could not get file from form" 400) := by
  refine ⟨?_, ?_, ?_⟩
  · intro h
    unfold upload
    simp [h]
  · intro hm hb
    unfold upload
    simp [hm, hb]
  · intro files hm hb hf
    unfold upload
    simp [hm, hb, hf]

/-- Witness for C5: a GET, a malformed body, and a form without the
`upload` field each yield their 4xx error and leave the world alone. -/
theorem upload_client_errors_witness :
    upload "/tmp" "upload" 10485760 { uploadReq with method := "GET" } [] sampleWorld =
      httpError [] sampleWorld [] "Method not allowed" 405 ∧
    upload "/tmp" "upload" 10485760 { uploadReq with body := .malformed } [] sampleWorld =
      httpError [] sampleWorld [.app "Error parsing multipart form"]
        "Could not parse multipart form" 400 ∧
    upload "/tmp" "upload" 10485760 { uploadReq with body := .form [] } [] sampleWorld =
      httpError [] sampleWorld [.app "Error retrieving file from form"]
        "Could not get file from form" 400 := by
  refine ⟨?_, ?_, ?_⟩
  · exact (upload_client_errors "/tmp" "upload" 10485760
      { uploadReq with method := "GET" } [] sampleWorld).1 (by decide)
  · exact (upload_client_errors "/tmp" "upload" 10485760
      { uploadReq with body := .malformed } [] sampleWorld).2.1 rfl rfl
  · exact (upload_client_errors "/tmp" "upload" 10485760
      { uploadReq with body := .form [] } [] sampleWorld).2.2 [] rfl rfl (by decide)

/-- **C6**.  When the destination file was created but the stream-copy
fails after `k` bytes, the upload handler responds 500 with the
`Could not save file` body and leaves the destination file in place —
not deleted, not rolled back — containing the truncated prefix of the
part body that was copied before the failure; no other path changes. -/
theorem upload_copy_failure (baseDir field : String) (maxSz : Int) (r : Request)
    (hdrs : Headers) (w : World) (files : List (String × FilePart))
    (part : FilePart) (k : Nat)
    (hm : r.method = "POST") (hb : r.body = MultipartBody.form files)
    (hf : formFile files field = some part)
    (hc : w.createFail.contains (filepathJoin baseDir part.filename) = false)
    (he : part.readErrAfter = some k) :
    (upload baseDir field maxSz r hdrs w).status = 500 ∧
    (upload baseDir field maxSz r hdrs w).body = "Could not save file\n" ∧
    fsRead (upload baseDir field maxSz r hdrs w).world.fs
      (filepathJoin baseDir part.filename) = some (List.take k part.data) ∧
    (∀ p, p ≠ filepathJoin baseDir part.filename →
      fsRead (upload baseDir field maxSz r hdrs w).world.fs p = fsRead w.fs p) := by
  unfold upload
  dsimp only
  rw [hm]
  simp only [hb, hf, hc, he]
  simp only [ne_eq, not_true_eq_false, if_false, Bool.false_eq_true, if_neg,
    fsWrite_fsWrite_self]
  refine ⟨rfl, rfl, fsRead_fsWrite_self _ _ _, ?_⟩
  intro p hpne
  exact fsRead_fsWrite_ne _ _ _ _ hpne

/-- Witness for C6: a copy of `[104, 105, 106]` failing after one byte
leaves `/tmp/a.txt` holding exactly `[104]` and answers 500. -/
theorem upload_copy_failure_witness :
    (upload "/tmp" "upload" 10485760
      { uploadReq with body := .form [("upload", ⟨"a.txt", [104, 105, 106], some 1⟩)] }
      [] sampleWorld).status = 500 ∧
    fsRead (upload "/tmp" "upload" 10485760
      { uploadReq with body := .form [("upload", ⟨"a.txt", [104, 105, 106], some 1⟩)] }
      [] sampleWorld).world.fs "/tmp/a.txt" = some [104] := by
  have h := upload_copy_failure "/tmp" "upload" 10485760
    { uploadReq with body := .form [("upload", ⟨"a.txt", [104, 105, 106], some 1⟩)] }
    [] sampleWorld [("upload", ⟨"a.txt", [104, 105, 106], some 1⟩)]
    ⟨"a.txt", [104, 105, 106], some 1⟩ 1 rfl rfl (by decide) (by decide) rfl
  have hpath : filepathJoin "/tmp" "a.txt" = "/tmp/a.txt" := by decide
  exact ⟨h.1, by rw [← hpath]; exact h.2.2.1⟩

/-- **C9**.  For every upload that reaches the file-creation step — and
one is reached for every client-supplied filename, with no filename
rejected, altered, or checked first — the destination is exactly
`filepath.Join(directory, filename)` with the filename passed in
verbatim: no path other than that join is ever touched, and on a
successful copy the part's bytes land there, silently replacing
whatever file existed at that path (no collision handling). -/
theorem upload_destination_verbatim (baseDir field : String) (maxSz : Int)
    (r : Request) (hdrs : Headers) (w : World) (files : List (String × FilePart))
    (part : FilePart)
    (hm : r.method = "POST") (hb : r.body = MultipartBody.form files)
    (hf : formFile files field = some part) :
    (∀ p, p ≠ filepathJoin baseDir part.filename →
      fsRead (upload baseDir field maxSz r hdrs w).world.fs p = fsRead w.fs p) ∧
    (w.createFail.contains (filepathJoin baseDir part.filename) = false →
      part.readErrAfter = none →
      fsRead (upload baseDir field maxSz r hdrs w).world.fs
        (filepathJoin baseDir part.filename) = some part.data) := by
  constructor
  · intro p hpne
    unfold upload
    dsimp only
    rw [hm]
    simp only [hb, hf, ne_eq, not_true_eq_false, if_false]
    by_cases hc : w.createFail.contains (filepathJoin baseDir part.filename) = true
    · rw [if_pos hc]
      rfl
    · rw [if_neg hc]
      cases hval : part.readErrAfter <;>
        simp only [hval, fsWrite_fsWrite_self] <;>
        exact fsRead_fsWrite_ne _ _ _ _ hpne
  · intro hc he
    unfold upload
    dsimp only
    rw [hm]
    simp only [hb, hf, hc, he]
    simp only [ne_eq, not_true_eq_false, if_false, Bool.false_eq_true, if_neg,
      fsWrite_fsWrite_self]
    exact fsRead_fsWrite_self _ _ _

/-- Witness for C9: the filename `../secret` is used verbatim, the
joined destination `/secret` escapes the configured directory `/tmp`
(no path-traversal protection), and the upload silently overwrites the
file already stored at `/secret` (no collision handling). -/
theorem upload_destination_verbatim_witness :
    filepathJoin "/tmp" "../secret" = "/secret" ∧
    fsRead (upload "/tmp" "upload" 10485760
      { uploadReq with body := .form [("upload", ⟨"../secret", [1, 2], none⟩)] }
      [] { fs := [("/secret", [9])], createFail := [], healthy := 0, now := 0 }).world.fs
      "/secret" = some [1, 2] := by
  have h := (upload_destination_verbatim "/tmp" "upload" 10485760
    { uploadReq with body := .form [("upload", ⟨"../secret", [1, 2], none⟩)] }
    [] { fs := [("/secret", [9])], createFail := [], healthy := 0, now := 0 }
    [("upload", ⟨"../secret", [1, 2], none⟩)] ⟨"../secret", [1, 2], none⟩
    rfl rfl (by decide)).2 (by decide) rfl
  have hpath : filepathJoin "/tmp" "../secret" = "/secret" := by decide
  exact ⟨hpath, by rw [← hpath]; exact h⟩

end UploadServer
